import Mathlib

/-!
Shallow embedding of `src/server/assets/voice/wake_listener.py` (the wake-word
listener core: RestartableFileReader, SpeechProcessor and the per-frame main
loop), together with theorems settling the frozen claims about it.

Modelling conventions:
* Wall-clock times are rationals (seconds since epoch); every `time.time()`
  call inside one frame-processing step is modelled by the single
  `now` argument (successive calls within a step differ only by negligible
  amounts).  The duration of the transcription call is an explicit `dur`
  argument, so the time at which `process_buffered_audio` finishes is
  `now + dur`.
* The external feature-extraction capability (librosa rms / spectral
  centroid / zero-crossing rate) is modelled as oracle data attached to each
  frame (`Frame.rms`, `Frame.spectral_centroid`, `Frame.zcr`), since the
  spec treats the extractor as an external collaborator.
* The external transcription capability (faster-whisper) is an oracle
  argument of type `Except String (List String)`: `Except.ok segs` is a
  successful call returning text segments, `Except.error msg` models the
  engine raising an exception with message `msg`.
* The wake-word model capability is an oracle argument: the per-label score
  list the model would return for the frame, in dict iteration order.
* JSON events are modelled by the inductive `Event`, keeping the fields the
  claims talk about; display-level decimal rounding of numbers is elided.
-/

namespace WakeListener

set_option maxRecDepth 100000

/-! Constants from the top of wake_listener.py. -/

def FRAME_MS : ℕ := 80

def SR : ℕ := 16000

def SAMPLE_BYTES : ℕ := 2

/-- Constant `FRAME_BYTES = int(SR * (FRAME_MS/1000.0) * SAMPLE_BYTES)` = 2560. -/
def FRAME_BYTES : ℕ := SR * FRAME_MS / 1000 * SAMPLE_BYTES

def WAV_HEADER : ℕ := 44

def MAX_AUDIO_SECONDS : ℕ := 10

def SILENCE_TIMEOUT_MS : ℕ := 1000

/-- Constant `AUDIO_BUFFER_SIZE = int(SR * MAX_AUDIO_SECONDS * SAMPLE_BYTES)` = 320000. -/
def AUDIO_BUFFER_SIZE : ℕ := SR * MAX_AUDIO_SECONDS * SAMPLE_BYTES

/-- Capacity of the capture deque: `AUDIO_BUFFER_SIZE // FRAME_BYTES` = 125. -/
def audioBufferMaxlen : ℕ := AUDIO_BUFFER_SIZE / FRAME_BYTES

/-- One frame duration in seconds (80 ms). -/
def frameSec : ℚ := (FRAME_MS : ℚ) / 1000

/-! Events printed as JSON lines (Event Emitter). -/

inductive Event where
  | info (timestamp : ℚ)
  | listening_start (timestamp : ℚ)
  | audio_debug (timestamp : ℚ)
  | silence_detected (timestamp : ℚ)
  | max_buffer_reached (timestamp : ℚ)
  | transcription (text : String) (audio_duration : ℚ) (processing_time : ℚ) (timestamp : ℚ)
  | error (message : String) (processing_time : ℚ) (timestamp : ℚ)
  | wakeword (label : String) (score : ℚ) (timestamp : ℚ)
deriving DecidableEq

/-- The wakeword events among a list of emitted events. -/
def wakewordEvents (evs : List Event) : List Event :=
  evs.filter fun e =>
    match e with
    | Event.wakeword _ _ _ => true
    | _ => false

/-! RestartableFileReader. -/

structure RestartableFileReader where
  /-- byte offset of the file cursor (the position of `self.f`). -/
  pos : ℕ
  /-- Field `self.leftover`: partially-accumulated bytes of the next frame. -/
  leftover : List ℕ
  /-- Field `self.restart_requested`. -/
  restart_requested : Bool
deriving DecidableEq

/-- Method `open_file`: (re)open the file, seek past the WAV header, clear the
partial bytes and the restart flag. -/
def open_file : RestartableFileReader :=
  { pos := WAV_HEADER, leftover := [], restart_requested := false }

/-- Method `request_restart` (called from the stdin monitor thread). -/
def request_restart (r : RestartableFileReader) : RestartableFileReader :=
  { r with restart_requested := true }

/-- One call of `RestartableFileReader.read_frame`.  The underlying
`self.f.read(FRAME_BYTES - len(self.leftover))` call is modelled by the
oracle `readResult`: `Except.ok chunk` is a successful read returning
`chunk` (possibly shorter than requested, possibly empty when the writer has
not caught up), `Except.error e` models an OS-level fault raised by the
read.  The source wraps the read in no handler, so a raised fault propagates
out of `read_frame` (hence the `Except` result type).  `tInfo` and `tListen`
are the `time.time()` stamps of the two restart events. -/
def read_frame (r : RestartableFileReader) (tInfo tListen : ℚ)
    (readResult : Except String (List ℕ)) :
    Except String (RestartableFileReader × Option (List ℕ) × List Event) :=
  if r.restart_requested then
    Except.ok (open_file, none, [Event.info tInfo, Event.listening_start tListen])
  else
    match readResult with
    | Except.error e => Except.error e
    | Except.ok chunk =>
      if chunk = [] then
        -- time.sleep(0.03); return None  (Pending: retry after a brief pause)
        Except.ok (r, none, [])
      else
        let buf := r.leftover ++ chunk
        if buf.length < FRAME_BYTES then
          Except.ok ({ r with leftover := buf, pos := r.pos + chunk.length }, none, [])
        else
          Except.ok ({ r with leftover := buf.drop FRAME_BYTES, pos := r.pos + chunk.length },
            some (buf.take FRAME_BYTES), [])

/-! SpeechProcessor. -/

inductive ListenerState where
  | WAKE_WORD_DETECTION
  | LISTENING_FOR_SPEECH
  | PROCESSING_SPEECH
deriving DecidableEq

/-- Per-frame feature record appended to `recent_features`. -/
structure Features where
  rms : ℚ
  spectral_centroid : ℚ
  zcr : ℚ
deriving DecidableEq

/-- An 80 ms PCM frame together with the feature values the external
extractor (librosa) computes for it. -/
structure Frame where
  samples : List ℤ
  rms : ℚ
  spectral_centroid : ℚ
  zcr : ℚ
deriving DecidableEq

/-- Append to a `collections.deque` of maximum length `m`: the oldest
entries are evicted from the front once the deque is full. -/
def pushMax {α : Type} (m : ℕ) (l : List α) (x : α) : List α :=
  let l2 := l ++ [x]
  l2.drop (l2.length - m)

structure SPState where
  state : ListenerState
  audio_buffer : List Frame
  silence_start_time : Option ℚ
  last_speech_time : Option ℚ
  last_transcription_time : Option ℚ
  cooldown_period : ℚ
  recent_features : List Features
  debug_counter : ℕ
deriving DecidableEq

/-- Constructor `SpeechProcessor.__init__` (the Whisper handle itself is the external
transcription capability and carries no state we track). -/
def initState : SPState :=
  { state := ListenerState.WAKE_WORD_DETECTION
    audio_buffer := []
    silence_start_time := none
    last_speech_time := none
    last_transcription_time := none
    cooldown_period := 1
    recent_features := []
    debug_counter := 0 }

def featuresOf (f : Frame) : Features :=
  { rms := f.rms, spectral_centroid := f.spectral_centroid, zcr := f.zcr }

/-- Mean `np.mean` of a list of rationals. -/
def ratMean (l : List ℚ) : ℚ := l.sum / (l.length : ℚ)

/-- The rolling history after appending the features of the current frame
(`self.recent_features.append(features)`, maxlen 50). -/
def histAfter (s : SPState) (f : Frame) : List Features :=
  pushMax 50 s.recent_features (featuresOf f)

/-- The `is_silent` verdict computed by `add_audio_frame` (lines 129-147):
the history already holds the features of the current frame.  Above the warm-up
count of 10 samples, silent iff rms is below `max(avg_rms * 0.25, 0.01)`
and zcr is below `avg_zcr * 1.5`; otherwise silent iff rms is below the
fixed calibration threshold 0.02. -/
def isSilentAt (s : SPState) (f : Frame) : Bool :=
  let hist := histAfter s f
  if 10 < hist.length then
    decide (f.rms < max (ratMean (hist.map Features.rms) * (1 / 4)) (1 / 100)) &&
      decide (f.zcr < ratMean (hist.map Features.zcr) * (3 / 2))
  else
    decide (f.rms < 2 / 100)

/-- Concatenation `np.concatenate(list(self.audio_buffer))`. -/
def concatSamples (l : List Frame) : List ℤ :=
  l.foldr (fun fr acc => fr.samples ++ acc) []

/-- Method `SpeechProcessor.process_buffered_audio`.  `tStart` is `time.time()` on
entry, `dur ≥ 0` the wall-clock duration of the transcription call, `tr` the
transcription oracle.  Returns (new state, events printed inside the call,
returned result event). -/
def process_buffered_audio (s : SPState) (tStart dur : ℚ)
    (tr : Except String (List String)) : SPState × List Event × Option Event :=
  if s.audio_buffer.length = 0 then
    ({ s with state := ListenerState.WAKE_WORD_DETECTION }, [], none)
  else
    let audio_duration : ℚ := ((concatSamples s.audio_buffer).length : ℚ) / (SR : ℚ)
    let tEnd := tStart + dur
    let result : Event :=
      match tr with
      | Except.ok segs =>
          Event.transcription (String.intercalate " " (segs.map String.trim))
            audio_duration dur tEnd
      | Except.error msg =>
          Event.error (String.append "Transcription failed: " msg) dur tEnd
    ({ s with
        state := ListenerState.WAKE_WORD_DETECTION
        audio_buffer := []
        last_transcription_time := some tEnd
        recent_features := []
        debug_counter := 0 },
      [Event.info tEnd], some result)

/-- The tail of `add_audio_frame` (lines 179-189): the max-buffer-size check
performed after the silence logic falls through. -/
def afterChecks (s : SPState) (dbg : List Event) (now dur : ℚ)
    (tr : Except String (List String)) : SPState × List Event × Option Event :=
  if audioBufferMaxlen - 10 ≤ s.audio_buffer.length then
    let p := process_buffered_audio s now dur tr
    (p.1, dbg ++ [Event.max_buffer_reached now] ++ p.2.1, p.2.2)
  else
    (s, dbg, none)

/-- Method `SpeechProcessor.add_audio_frame`.  Returns (new state, events printed
during the call, result returned to the caller). -/
def add_audio_frame (s : SPState) (f : Frame) (now dur : ℚ)
    (tr : Except String (List String)) : SPState × List Event × Option Event :=
  if s.state = ListenerState.LISTENING_FOR_SPEECH then
    let buf := pushMax audioBufferMaxlen s.audio_buffer f
    let hist := histAfter s f
    let dc := s.debug_counter + 1
    let dbg : List Event := if dc % 12 = 0 then [Event.audio_debug now] else []
    let s1 : SPState :=
      { s with audio_buffer := buf, recent_features := hist, debug_counter := dc }
    if isSilentAt s f then
      match s.silence_start_time with
      | none =>
          afterChecks { s1 with silence_start_time := some now } dbg now dur tr
      | some t0 =>
          if (now - t0) * 1000 > (SILENCE_TIMEOUT_MS : ℚ) then
            let p := process_buffered_audio s1 now dur tr
            (p.1, dbg ++ [Event.silence_detected now] ++ p.2.1, p.2.2)
          else
            afterChecks s1 dbg now dur tr
    else
      afterChecks { s1 with silence_start_time := none, last_speech_time := some now }
        dbg now dur tr
  else
    (s, [], none)

/-- Method `SpeechProcessor.start_listening`. -/
def start_listening (s : SPState) (now : ℚ) : SPState × Event :=
  ({ s with
      state := ListenerState.LISTENING_FOR_SPEECH
      audio_buffer := []
      silence_start_time := none
      last_speech_time := some now },
    Event.listening_start now)

/-- Method `SpeechProcessor.is_in_cooldown` at wall-clock time `now`. -/
def is_in_cooldown (s : SPState) (now : ℚ) : Bool :=
  match s.last_transcription_time with
  | none => false
  | some t => decide (now - t < s.cooldown_period)

/-! The per-frame body of the loop in `main` (lines 368-408). -/

structure StepOut where
  st : SPState
  events : List Event
  /-- whether `wake_model.predict` was invoked on this frame. -/
  predict_called : Bool
deriving DecidableEq

/-- One iteration of the main loop on a delivered frame.  `scores` is the
label-to-score mapping the wake-word model would return for this frame, in
dict iteration order; `threshold` is `args.threshold`. -/
def mainStep (s : SPState) (f : Frame) (scores : List (String × ℚ)) (threshold : ℚ)
    (now dur : ℚ) (tr : Except String (List String)) : StepOut :=
  let a := add_audio_frame s f now dur tr
  let s1 := a.1
  let resEvs : List Event :=
    match a.2.2 with
    | some e => [e]
    | none => []
  if s1.state = ListenerState.WAKE_WORD_DETECTION ∧ is_in_cooldown s1 now = false then
    let triggered := scores.filter fun p => threshold ≤ p.2
    match triggered with
    | [] => ⟨s1, a.2.1 ++ resEvs, true⟩
    | (label, score) :: _ =>
        let l := start_listening s1 now
        ⟨l.1, a.2.1 ++ resEvs ++ [l.2, Event.wakeword label score now], true⟩
  else if s1.state = ListenerState.WAKE_WORD_DETECTION then
    -- cooldown: still feed the frame to the wake word model, discard result
    ⟨s1, a.2.1 ++ resEvs, true⟩
  else
    ⟨s1, a.2.1 ++ resEvs, false⟩

/-- The oracle inputs of one main-loop iteration. -/
structure StepInput where
  frame : Frame
  scores : List (String × ℚ)
  now : ℚ
  dur : ℚ
  tr : Except String (List String)

/-- Fold of the main loop over a sequence of delivered frames. -/
def runMain (threshold : ℚ) (s : SPState) : List StepInput → SPState
  | [] => s
  | i :: rest =>
      runMain threshold (mainStep s i.frame i.scores threshold i.now i.dur i.tr).st rest

/-! Iterated listening on a run of frames arriving one frame-duration
apart (for the silence-timeout analysis).  Frame `i` of the run is
processed at time `t0 + i * frameSec`. -/

def silentRunState (s0 : SPState) (f : ℕ → Frame) (t0 dur : ℚ)
    (tr : Except String (List String)) : ℕ → SPState
  | 0 => s0
  | i + 1 =>
      (add_audio_frame (silentRunState s0 f t0 dur tr i) (f i)
        (t0 + (i : ℚ) * frameSec) dur tr).1

def silentRunResult (s0 : SPState) (f : ℕ → Frame) (t0 dur : ℚ)
    (tr : Except String (List String)) (i : ℕ) : Option Event :=
  (add_audio_frame (silentRunState s0 f t0 dur tr i) (f i)
    (t0 + (i : ℚ) * frameSec) dur tr).2.2

/-- State invariant relating the capture state to the cooldown clock at the
time the current frame is processed: the transient `PROCESSING_SPEECH` state
is never the resting state between frames, and while listening the cooldown
window is over (one only enters listening outside cooldown, and entering
never touches `last_transcription_time`). -/
def StateInv (s : SPState) (t : ℚ) : Prop :=
  s.state ≠ ListenerState.PROCESSING_SPEECH ∧
    (s.state = ListenerState.LISTENING_FOR_SPEECH → is_in_cooldown s t = false)

/-! Concrete states and frames used to instantiate the theorems. -/

/-- A low-energy frame: rms 0.005 (below both the calibration threshold 0.02
and the adaptive floor 0.01), zcr 0.01. -/
def quietFrame : Frame :=
  { samples := [], rms := 1 / 200, spectral_centroid := 0, zcr := 1 / 100 }

/-- A high-energy frame: rms 0.5. -/
def loudFrame : Frame :=
  { samples := [3, -3], rms := 1 / 2, spectral_centroid := 1200, zcr := 1 / 10 }

/-- Fresh listening state (as right after `start_listening` at time 0). -/
def listenState : SPState :=
  { initState with
      state := ListenerState.LISTENING_FOR_SPEECH, last_speech_time := some 0 }

/-- Listening state with one buffered frame. -/
def listenState1 : SPState :=
  { listenState with audio_buffer := [loudFrame] }

/-- Listening state whose capture buffer holds 114 frames (one below the
forced-transcription threshold `maxlen - 10 = 115`). -/
def nearFullState : SPState :=
  { listenState with audio_buffer := List.replicate 114 loudFrame }

/-- Wake-word-detection state freshly out of a transcription finished at
time 0 (cooldown active until time 1). -/
def cooldownState : SPState :=
  { initState with last_transcription_time := some 0 }

/-! ### Helper lemmas -/

theorem audioBufferMaxlen_eq : audioBufferMaxlen = 125 := by decide

theorem pushMax_eq_append {α : Type} {m : ℕ} {l : List α} {x : α}
    (h : l.length + 1 ≤ m) : pushMax m l x = l ++ [x] := by
  have h2 : (l ++ [x]).length - m = 0 := by
    simp only [List.length_append, List.length_singleton]
    omega
  simp only [pushMax, h2, List.drop_zero]

theorem pushMax_length {α : Type} (m : ℕ) (l : List α) (x : α) :
    (pushMax m l x).length = min (l.length + 1) m := by
  simp only [pushMax, List.length_drop, List.length_append, List.length_singleton]
  omega

theorem pushMax_ne_nil {α : Type} {m : ℕ} (hm : 1 ≤ m) (l : List α) (x : α) :
    pushMax m l x ≠ [] := by
  intro hcon
  have h := pushMax_length m l x
  rw [hcon] at h
  simp only [List.length_nil] at h
  omega

/-- Full characterization of `process_buffered_audio` on a non-empty buffer. -/
theorem process_spec (s : SPState) (tStart dur : ℚ) (tr : Except String (List String))
    (hne : s.audio_buffer ≠ []) :
    process_buffered_audio s tStart dur tr =
      ({ s with
          state := ListenerState.WAKE_WORD_DETECTION
          audio_buffer := []
          last_transcription_time := some (tStart + dur)
          recent_features := []
          debug_counter := 0 },
        [Event.info (tStart + dur)],
        some (match tr with
          | Except.ok segs =>
              Event.transcription (String.intercalate " " (segs.map String.trim))
                (((concatSamples s.audio_buffer).length : ℚ) / (SR : ℚ)) dur (tStart + dur)
          | Except.error msg =>
              Event.error (String.append "Transcription failed: " msg) dur (tStart + dur))) := by
  have hl : ¬ s.audio_buffer.length = 0 := by simpa using hne
  unfold process_buffered_audio
  rw [if_neg hl]

theorem afterChecks_fire (s : SPState) (dbg : List Event) (now dur : ℚ)
    (tr : Except String (List String))
    (hfull : audioBufferMaxlen - 10 ≤ s.audio_buffer.length) :
    afterChecks s dbg now dur tr =
      ((process_buffered_audio s now dur tr).1,
        dbg ++ [Event.max_buffer_reached now] ++ (process_buffered_audio s now dur tr).2.1,
        (process_buffered_audio s now dur tr).2.2) := by
  simp only [afterChecks, hfull, if_true, ite_true]

theorem afterChecks_skip (s : SPState) (dbg : List Event) (now dur : ℚ)
    (tr : Except String (List String))
    (hsmall : s.audio_buffer.length < audioBufferMaxlen - 10) :
    afterChecks s dbg now dur tr = (s, dbg, none) := by
  have h : ¬ (audioBufferMaxlen - 10 ≤ s.audio_buffer.length) := by omega
  simp only [afterChecks, h, if_false, ite_false]

theorem add_audio_frame_not_listening (s : SPState) (f : Frame) (now dur : ℚ)
    (tr : Except String (List String))
    (h : ¬ s.state = ListenerState.LISTENING_FOR_SPEECH) :
    add_audio_frame s f now dur tr = (s, [], none) := by
  simp only [add_audio_frame, h, if_false, ite_false]

/-- Listening step on a silent frame with no recorded silence start, buffer
staying below the forced-transcription threshold: the silence start is
recorded, nothing else observable happens. -/
theorem add_step_silent_start (s : SPState) (f : Frame) (now dur : ℚ)
    (tr : Except String (List String))
    (hst : s.state = ListenerState.LISTENING_FOR_SPEECH)
    (hss : s.silence_start_time = none)
    (hsil : isSilentAt s f = true)
    (hbuf : s.audio_buffer.length + 1 < audioBufferMaxlen - 10) :
    add_audio_frame s f now dur tr =
      ({ s with
          audio_buffer := s.audio_buffer ++ [f]
          recent_features := histAfter s f
          debug_counter := s.debug_counter + 1
          silence_start_time := some now },
        if (s.debug_counter + 1) % 12 = 0 then [Event.audio_debug now] else [],
        none) := by
  have hcap : s.audio_buffer.length + 1 ≤ audioBufferMaxlen := by
    have := audioBufferMaxlen_eq
    omega
  have hpush : pushMax audioBufferMaxlen s.audio_buffer f = s.audio_buffer ++ [f] :=
    pushMax_eq_append hcap
  have hsmall : (s.audio_buffer ++ [f]).length < audioBufferMaxlen - 10 := by
    simp only [List.length_append, List.length_singleton]
    omega
  simp only [add_audio_frame, hst, if_true, ite_true, hsil, hss, hpush]
  rw [afterChecks_skip _ _ _ _ _ hsmall]

/-- Listening step on a silent frame with silence started at `t0` and the
timeout not yet strictly exceeded: state advances, the silence start is
kept, no transcription. -/
theorem add_step_silent_cont (s : SPState) (f : Frame) (now dur : ℚ)
    (tr : Except String (List String)) (t0 : ℚ)
    (hst : s.state = ListenerState.LISTENING_FOR_SPEECH)
    (hss : s.silence_start_time = some t0)
    (hsil : isSilentAt s f = true)
    (hlate : ¬ ((now - t0) * 1000 > (SILENCE_TIMEOUT_MS : ℚ)))
    (hbuf : s.audio_buffer.length + 1 < audioBufferMaxlen - 10) :
    add_audio_frame s f now dur tr =
      ({ s with
          audio_buffer := s.audio_buffer ++ [f]
          recent_features := histAfter s f
          debug_counter := s.debug_counter + 1 },
        if (s.debug_counter + 1) % 12 = 0 then [Event.audio_debug now] else [],
        none) := by
  have hcap : s.audio_buffer.length + 1 ≤ audioBufferMaxlen := by
    have := audioBufferMaxlen_eq
    omega
  have hpush : pushMax audioBufferMaxlen s.audio_buffer f = s.audio_buffer ++ [f] :=
    pushMax_eq_append hcap
  have hsmall : (s.audio_buffer ++ [f]).length < audioBufferMaxlen - 10 := by
    simp only [List.length_append, List.length_singleton]
    omega
  simp only [add_audio_frame, hst, if_true, ite_true, hsil, hss, hpush, hlate, if_false,
    ite_false]
  rw [afterChecks_skip _ _ _ _ _ hsmall]

/-- Listening step on a silent frame whose elapsed silence strictly exceeds
the timeout: the buffered audio is processed. -/
theorem add_step_silent_fire (s : SPState) (f : Frame) (now dur : ℚ)
    (tr : Except String (List String)) (t0 : ℚ)
    (hst : s.state = ListenerState.LISTENING_FOR_SPEECH)
    (hss : s.silence_start_time = some t0)
    (hsil : isSilentAt s f = true)
    (hfire : (now - t0) * 1000 > (SILENCE_TIMEOUT_MS : ℚ)) :
    (add_audio_frame s f now dur tr).2.2 ≠ none ∧
    (add_audio_frame s f now dur tr).1.state = ListenerState.WAKE_WORD_DETECTION ∧
    (add_audio_frame s f now dur tr).1.audio_buffer = [] ∧
    (add_audio_frame s f now dur tr).1.last_transcription_time = some (now + dur) := by
  have hm : (1 : ℕ) ≤ audioBufferMaxlen := by
    have := audioBufferMaxlen_eq
    omega
  have hne : pushMax audioBufferMaxlen s.audio_buffer f ≠ [] := pushMax_ne_nil hm _ _
  simp only [add_audio_frame, hst, if_true, ite_true, hsil, hss, hfire]
  rw [process_spec _ _ _ _ hne]
  simp

/-- Listening step on a non-silent frame, buffer below the threshold: the
silence start is cleared and the last speech time updated. -/
theorem add_step_not_silent (s : SPState) (f : Frame) (now dur : ℚ)
    (tr : Except String (List String))
    (hst : s.state = ListenerState.LISTENING_FOR_SPEECH)
    (hns : isSilentAt s f = false)
    (hbuf : s.audio_buffer.length + 1 < audioBufferMaxlen - 10) :
    add_audio_frame s f now dur tr =
      ({ s with
          audio_buffer := s.audio_buffer ++ [f]
          recent_features := histAfter s f
          debug_counter := s.debug_counter + 1
          silence_start_time := none
          last_speech_time := some now },
        if (s.debug_counter + 1) % 12 = 0 then [Event.audio_debug now] else [],
        none) := by
  have hcap : s.audio_buffer.length + 1 ≤ audioBufferMaxlen := by
    have := audioBufferMaxlen_eq
    omega
  have hpush : pushMax audioBufferMaxlen s.audio_buffer f = s.audio_buffer ++ [f] :=
    pushMax_eq_append hcap
  have hsmall : (s.audio_buffer ++ [f]).length < audioBufferMaxlen - 10 := by
    simp only [List.length_append, List.length_singleton]
    omega
  simp only [add_audio_frame, hst, if_true, ite_true, hns, Bool.false_eq_true, if_false,
    ite_false, hpush]
  rw [afterChecks_skip _ _ _ _ _ hsmall]

/-- The max-buffer check either leaves the state untouched (buffer below the
threshold) or hands the non-empty buffer to `process_buffered_audio`. -/
theorem afterChecks_cases (s : SPState) (dbg : List Event) (now dur : ℚ)
    (tr : Except String (List String)) (hne : s.audio_buffer ≠ []) :
    ((afterChecks s dbg now dur tr).1 = s ∧ (afterChecks s dbg now dur tr).2.2 = none) ∨
    ((afterChecks s dbg now dur tr).1.state = ListenerState.WAKE_WORD_DETECTION ∧
      (afterChecks s dbg now dur tr).2.2 ≠ none ∧
      (afterChecks s dbg now dur tr).1.audio_buffer = [] ∧
      (afterChecks s dbg now dur tr).1.last_transcription_time = some (now + dur)) := by
  by_cases hc : audioBufferMaxlen - 10 ≤ s.audio_buffer.length
  · right
    rw [afterChecks_fire _ _ _ _ _ hc, process_spec _ _ _ _ hne]
    simp
  · left
    rw [afterChecks_skip _ _ _ _ _ (by omega)]
    exact ⟨rfl, rfl⟩

/-- In a listening step that appends the frame and reaches (or passes) the
forced-transcription threshold, an end-of-utterance action always runs:
a result event is produced, the buffer is cleared, the state returns to
wake-word detection, and the cooldown clock is set. -/
theorem add_step_full_buffer (s : SPState) (f : Frame) (now dur : ℚ)
    (tr : Except String (List String))
    (hst : s.state = ListenerState.LISTENING_FOR_SPEECH)
    (hcap : s.audio_buffer.length + 1 ≤ audioBufferMaxlen)
    (hfull : audioBufferMaxlen - 10 ≤ s.audio_buffer.length + 1) :
    (add_audio_frame s f now dur tr).2.2 ≠ none ∧
    (add_audio_frame s f now dur tr).1.audio_buffer = [] ∧
    (add_audio_frame s f now dur tr).1.state = ListenerState.WAKE_WORD_DETECTION ∧
    (add_audio_frame s f now dur tr).1.last_transcription_time = some (now + dur) := by
  have hpush : pushMax audioBufferMaxlen s.audio_buffer f = s.audio_buffer ++ [f] :=
    pushMax_eq_append hcap
  have hne : s.audio_buffer ++ [f] ≠ [] := by simp
  have hlen : audioBufferMaxlen - 10 ≤ (s.audio_buffer ++ [f]).length := by
    simp only [List.length_append, List.length_singleton]
    omega
  by_cases hsil : isSilentAt s f
  · cases hss : s.silence_start_time with
    | none =>
        simp only [add_audio_frame, hst, if_true, ite_true, hsil, hss, hpush]
        rw [afterChecks_fire _ _ _ _ _ hlen, process_spec _ _ _ _ hne]
        simp
    | some t0 =>
        by_cases hfire : (now - t0) * 1000 > (SILENCE_TIMEOUT_MS : ℚ)
        · have h := add_step_silent_fire s f now dur tr t0 hst hss hsil hfire
          exact ⟨h.1, h.2.2.1, h.2.1, h.2.2.2⟩
        · simp only [add_audio_frame, hst, if_true, ite_true, hsil, hss, hfire, if_false,
            ite_false, hpush]
          rw [afterChecks_fire _ _ _ _ _ hlen, process_spec _ _ _ _ hne]
          simp
  · have hsil2 : isSilentAt s f = false := by
      simpa using hsil
    simp only [add_audio_frame, hst, if_true, ite_true, hsil2, Bool.false_eq_true, if_false,
      ite_false, hpush]
    rw [afterChecks_fire _ _ _ _ _ hlen, process_spec _ _ _ _ hne]
    simp

/-- A listening step either stays listening with no result (preserving the
cooldown bookkeeping) or performs an end-of-utterance action: it returns to
wake-word detection with a result event. -/
theorem add_listening_cases (s : SPState) (f : Frame) (now dur : ℚ)
    (tr : Except String (List String))
    (hst : s.state = ListenerState.LISTENING_FOR_SPEECH) :
    ((add_audio_frame s f now dur tr).1.state = ListenerState.LISTENING_FOR_SPEECH ∧
      (add_audio_frame s f now dur tr).2.2 = none ∧
      (add_audio_frame s f now dur tr).1.last_transcription_time = s.last_transcription_time ∧
      (add_audio_frame s f now dur tr).1.cooldown_period = s.cooldown_period ∧
      (add_audio_frame s f now dur tr).1.audio_buffer.length < audioBufferMaxlen - 10) ∨
    ((add_audio_frame s f now dur tr).1.state = ListenerState.WAKE_WORD_DETECTION ∧
      (add_audio_frame s f now dur tr).2.2 ≠ none ∧
      (add_audio_frame s f now dur tr).1.audio_buffer = [] ∧
      (add_audio_frame s f now dur tr).1.last_transcription_time = some (now + dur)) := by
  have hm : (1 : ℕ) ≤ audioBufferMaxlen := by
    have := audioBufferMaxlen_eq
    omega
  have hne : pushMax audioBufferMaxlen s.audio_buffer f ≠ [] := pushMax_ne_nil hm _ _
  by_cases hsil : isSilentAt s f
  · cases hss : s.silence_start_time with
    | none =>
        simp only [add_audio_frame, hst, if_true, ite_true, hsil, hss]
        by_cases hc : audioBufferMaxlen - 10 ≤ (pushMax audioBufferMaxlen s.audio_buffer f).length
        · right
          rw [afterChecks_fire _ _ _ _ _ hc, process_spec _ _ _ _ hne]
          simp
        · left
          rw [afterChecks_skip _ _ _ _ _ (by
            show (pushMax audioBufferMaxlen s.audio_buffer f).length < audioBufferMaxlen - 10
            omega)]
          exact ⟨rfl, rfl, rfl, rfl, by
            show (pushMax audioBufferMaxlen s.audio_buffer f).length < audioBufferMaxlen - 10
            omega⟩
    | some t0 =>
        by_cases hfire : (now - t0) * 1000 > (SILENCE_TIMEOUT_MS : ℚ)
        · right
          have h := add_step_silent_fire s f now dur tr t0 hst hss hsil hfire
          exact ⟨h.2.1, h.1, h.2.2.1, h.2.2.2⟩
        · simp only [add_audio_frame, hst, if_true, ite_true, hsil, hss, hfire, if_false,
            ite_false]
          by_cases hc : audioBufferMaxlen - 10 ≤ (pushMax audioBufferMaxlen s.audio_buffer f).length
          · right
            rw [afterChecks_fire _ _ _ _ _ hc, process_spec _ _ _ _ hne]
            simp
          · left
            rw [afterChecks_skip _ _ _ _ _ (by
              show (pushMax audioBufferMaxlen s.audio_buffer f).length < audioBufferMaxlen - 10
              omega)]
            exact ⟨rfl, rfl, rfl, rfl, by
              show (pushMax audioBufferMaxlen s.audio_buffer f).length < audioBufferMaxlen - 10
              omega⟩
  · have hsil2 : isSilentAt s f = false := by
      simpa using hsil
    simp only [add_audio_frame, hst, if_true, ite_true, hsil2, Bool.false_eq_true, if_false,
      ite_false]
    by_cases hc : audioBufferMaxlen - 10 ≤ (pushMax audioBufferMaxlen s.audio_buffer f).length
    · right
      rw [afterChecks_fire _ _ _ _ _ hc, process_spec _ _ _ _ hne]
      simp
    · left
      rw [afterChecks_skip _ _ _ _ _ (by
        show (pushMax audioBufferMaxlen s.audio_buffer f).length < audioBufferMaxlen - 10
        omega)]
      exact ⟨rfl, rfl, rfl, rfl, by
        show (pushMax audioBufferMaxlen s.audio_buffer f).length < audioBufferMaxlen - 10
        omega⟩

/-- One `add_audio_frame` call keeps the capture buffer length at or below
`max` of its previous length and `maxlen - 11` (it appends one frame, but
crossing `maxlen - 10` forces the buffer to be processed and cleared). -/
theorem add_buffer_le (s : SPState) (f : Frame) (now dur : ℚ)
    (tr : Except String (List String)) :
    (add_audio_frame s f now dur tr).1.audio_buffer.length ≤
      max s.audio_buffer.length (audioBufferMaxlen - 11) := by
  by_cases hst : s.state = ListenerState.LISTENING_FOR_SPEECH
  · rcases add_listening_cases s f now dur tr hst with ⟨_, _, _, _, h5⟩ | ⟨_, _, h3, _⟩
    · have : (add_audio_frame s f now dur tr).1.audio_buffer.length ≤ audioBufferMaxlen - 11 := by
        omega
      exact le_trans this (le_max_right _ _)
    · rw [h3]
      simp
  · rw [add_audio_frame_not_listening s f now dur tr hst]
    exact le_max_left _ _

/-- The state after one main-loop iteration is either the state produced by
`add_audio_frame`, or (on a wake-word trigger outside cooldown) that state
sent through `start_listening`. -/
theorem mainStep_st_cases (s : SPState) (f : Frame) (scores : List (String × ℚ))
    (threshold now dur : ℚ) (tr : Except String (List String)) :
    (mainStep s f scores threshold now dur tr).st = (add_audio_frame s f now dur tr).1 ∨
    ((mainStep s f scores threshold now dur tr).st =
        (start_listening (add_audio_frame s f now dur tr).1 now).1 ∧
      (add_audio_frame s f now dur tr).1.state = ListenerState.WAKE_WORD_DETECTION ∧
      is_in_cooldown (add_audio_frame s f now dur tr).1 now = false) := by
  unfold mainStep
  dsimp only
  by_cases hc : (add_audio_frame s f now dur tr).1.state = ListenerState.WAKE_WORD_DETECTION ∧
      is_in_cooldown (add_audio_frame s f now dur tr).1 now = false
  · rw [if_pos hc]
    rcases hfil : scores.filter (fun p => decide (threshold ≤ p.2)) with _ | ⟨⟨label, score⟩, tl⟩
    · rw [hfil]
      exact Or.inl rfl
    · rw [hfil]
      exact Or.inr ⟨rfl, hc.1, hc.2⟩
  · rw [if_neg hc]
    split
    · exact Or.inl rfl
    · exact Or.inl rfl

/-- One main-loop iteration keeps the capture buffer length bounded
likewise. -/
theorem mainStep_buffer_le (s : SPState) (f : Frame) (scores : List (String × ℚ))
    (threshold : ℚ) (now dur : ℚ) (tr : Except String (List String)) :
    (mainStep s f scores threshold now dur tr).st.audio_buffer.length ≤
      max s.audio_buffer.length (audioBufferMaxlen - 11) := by
  rcases mainStep_st_cases s f scores threshold now dur tr with h | ⟨h, _, _⟩
  · rw [h]
    exact add_buffer_le s f now dur tr
  · rw [h]
    simp [start_listening]

/-- The capture buffer length stays at or below `maxlen - 11` along any run
of the main loop started there. -/
theorem runMain_buffer_le (threshold : ℚ) (inputs : List StepInput) :
    ∀ s : SPState, s.audio_buffer.length ≤ audioBufferMaxlen - 11 →
      (runMain threshold s inputs).audio_buffer.length ≤ audioBufferMaxlen - 11 := by
  induction inputs with
  | nil =>
      intro s h
      simpa [runMain] using h
  | cons i rest ih =>
      intro s h
      rw [runMain]
      apply ih
      have hb := mainStep_buffer_le s i.frame i.scores threshold i.now i.dur i.tr
      have hm : max s.audio_buffer.length (audioBufferMaxlen - 11) ≤ audioBufferMaxlen - 11 :=
        max_le h le_rfl
      exact le_trans hb hm

/-- Being out of cooldown is preserved as the clock moves forward, for any
state with the same transcription timestamp and cooldown length. -/
theorem is_in_cooldown_mono (s1 s2 : SPState) (t t' : ℚ)
    (hlt : s1.last_transcription_time = s2.last_transcription_time)
    (hcd : s1.cooldown_period = s2.cooldown_period)
    (h : is_in_cooldown s2 t = false) (hmono : t ≤ t') :
    is_in_cooldown s1 t' = false := by
  unfold is_in_cooldown at h ⊢
  rw [hlt, hcd]
  cases hE : s2.last_transcription_time with
  | none => rfl
  | some u =>
      rw [hE] at h
      simp only [decide_eq_false_iff_not, not_lt] at h ⊢
      linarith

theorem is_in_cooldown_start_listening (s : SPState) (u t : ℚ) :
    is_in_cooldown (start_listening s u).1 t = is_in_cooldown s t := rfl

/-- The initial processor state satisfies the cooldown invariant. -/
theorem StateInv_init (t : ℚ) : StateInv initState t :=
  ⟨by decide, fun h => absurd h (by decide)⟩

/-- One main-loop iteration preserves the cooldown invariant (with a
monotone clock). -/
theorem StateInv_preserved (s : SPState) (f : Frame) (scores : List (String × ℚ))
    (threshold : ℚ) (t t' dur : ℚ) (tr : Except String (List String))
    (hinv : StateInv s t) (hmono : t ≤ t') :
    StateInv (mainStep s f scores threshold t' dur tr).st t' := by
  obtain ⟨hP, hL⟩ := hinv
  rcases mainStep_st_cases s f scores threshold t' dur tr with h | ⟨h, hW, hcd⟩
  · rw [h]
    cases hstate : s.state with
    | PROCESSING_SPEECH => exact absurd hstate hP
    | WAKE_WORD_DETECTION =>
        have hadd : add_audio_frame s f t' dur tr = (s, [], none) :=
          add_audio_frame_not_listening s f t' dur tr (by rw [hstate]; decide)
        rw [hadd]
        refine ⟨?_, fun hLs => ?_⟩
        · show s.state ≠ ListenerState.PROCESSING_SPEECH
          exact hP
        · rw [show ((s, ([] : List Event), (none : Option Event)).1.state =
              s.state) from rfl, hstate] at hLs
          exact absurd hLs (by decide)
    | LISTENING_FOR_SPEECH =>
        have hcdt : is_in_cooldown s t = false := hL hstate
        rcases add_listening_cases s f t' dur tr hstate with ⟨h1, _, h3, h4, _⟩ | ⟨h1, _, _, _⟩
        · refine ⟨by rw [h1]; decide, fun _ => ?_⟩
          exact is_in_cooldown_mono _ s t t' h3 h4 hcdt hmono
        · refine ⟨by rw [h1]; decide, fun hLs => ?_⟩
          rw [h1] at hLs
          exact absurd hLs (by decide)
  · rw [h]
    refine ⟨?_, fun _ => ?_⟩
    · show ListenerState.LISTENING_FOR_SPEECH ≠ ListenerState.PROCESSING_SPEECH
      decide
    · rw [is_in_cooldown_start_listening]
      exact hcd

/-- For the first 13 frames of a run at the 80 ms frame cadence, elapsed
time since the run start does not strictly exceed the 1000 ms timeout. -/
theorem elapsed_le_timeout (t0 : ℚ) (i : ℕ) (hi : i ≤ 12) :
    ¬ (((t0 + (i : ℚ) * frameSec) - t0) * 1000 > (SILENCE_TIMEOUT_MS : ℚ)) := by
  have hiq : (i : ℚ) ≤ 12 := by exact_mod_cast hi
  rw [not_lt]
  show ((t0 + (i : ℚ) * frameSec) - t0) * 1000 ≤ ((1000 : ℕ) : ℚ)
  have hfs : frameSec = 80 / 1000 := by norm_num [frameSec, FRAME_MS]
  rw [hfs]
  push_cast
  ring_nf
  linarith

/-- At the 14th frame of the run (index 13), elapsed time 1040 ms strictly
exceeds the 1000 ms timeout. -/
theorem elapsed_fire (t0 : ℚ) :
    ((t0 + (13 : ℚ) * frameSec) - t0) * 1000 > (SILENCE_TIMEOUT_MS : ℚ) := by
  show _ > ((1000 : ℕ) : ℚ)
  have hfs : frameSec = 80 / 1000 := by norm_num [frameSec, FRAME_MS]
  rw [hfs]
  push_cast
  ring_nf
  norm_num

/-- Trace invariant of a run of silent frames fed at frame cadence from a
fresh listening state: through index 13 the processor keeps listening, the
buffer grows by one per frame, the silence start stays pinned to the run
start `t0`, and no end-of-utterance result is produced before index 13. -/
theorem silence_run_inv (s0 : SPState) (f : ℕ → Frame) (t0 dur : ℚ)
    (tr : Except String (List String))
    (h1 : s0.state = ListenerState.LISTENING_FOR_SPEECH)
    (h2 : s0.silence_start_time = none)
    (hsil : ∀ i, i ≤ 13 → isSilentAt (silentRunState s0 f t0 dur tr i) (f i) = true)
    (hbuf : s0.audio_buffer.length + 14 < audioBufferMaxlen - 10) :
    ∀ i, i ≤ 13 →
      (silentRunState s0 f t0 dur tr i).state = ListenerState.LISTENING_FOR_SPEECH ∧
      (silentRunState s0 f t0 dur tr i).audio_buffer.length = s0.audio_buffer.length + i ∧
      (silentRunState s0 f t0 dur tr i).silence_start_time =
        (if i = 0 then none else some t0) ∧
      (∀ j, j < i → silentRunResult s0 f t0 dur tr j = none) := by
  intro i
  induction i with
  | zero =>
      intro _
      refine ⟨h1, by simp [silentRunState], by simp [silentRunState, h2], ?_⟩
      intro j hj
      exact absurd hj (by omega)
  | succ i ih =>
      intro hi13
      have hi : i ≤ 13 := by omega
      have hi12 : i ≤ 12 := by omega
      obtain ⟨hstI, hlenI, hssI, hresI⟩ := ih hi
      have hsilI : isSilentAt (silentRunState s0 f t0 dur tr i) (f i) = true := hsil i hi
      have hbufI : (silentRunState s0 f t0 dur tr i).audio_buffer.length + 1 <
          audioBufferMaxlen - 10 := by
        rw [hlenI]
        omega
      rcases Nat.eq_zero_or_pos i with hz | hp
      · subst hz
        have hss0 : (silentRunState s0 f t0 dur tr 0).silence_start_time = none := by
          simpa using hssI
        have hstep := add_step_silent_start (silentRunState s0 f t0 dur tr 0) (f 0)
          (t0 + (0 : ℚ) * frameSec) dur tr hstI hss0 hsilI hbufI
        refine ⟨?_, ?_, ?_, ?_⟩
        · show (add_audio_frame (silentRunState s0 f t0 dur tr 0) (f 0)
            (t0 + ((0 : ℕ) : ℚ) * frameSec) dur tr).1.state =
            ListenerState.LISTENING_FOR_SPEECH
          rw [show (((0 : ℕ) : ℚ)) = (0 : ℚ) from by norm_num, hstep]
          exact hstI
        · show (add_audio_frame (silentRunState s0 f t0 dur tr 0) (f 0)
            (t0 + ((0 : ℕ) : ℚ) * frameSec) dur tr).1.audio_buffer.length =
            s0.audio_buffer.length + 1
          rw [show (((0 : ℕ) : ℚ)) = (0 : ℚ) from by norm_num, hstep]
          simpa using hlenI
        · show (add_audio_frame (silentRunState s0 f t0 dur tr 0) (f 0)
            (t0 + ((0 : ℕ) : ℚ) * frameSec) dur tr).1.silence_start_time =
            (if 0 + 1 = 0 then none else some t0)
          rw [show (((0 : ℕ) : ℚ)) = (0 : ℚ) from by norm_num, hstep]
          norm_num
        · intro j hj
          have hj0 : j = 0 := by omega
          subst hj0
          show (add_audio_frame (silentRunState s0 f t0 dur tr 0) (f 0)
            (t0 + ((0 : ℕ) : ℚ) * frameSec) dur tr).2.2 = none
          rw [show (((0 : ℕ) : ℚ)) = (0 : ℚ) from by norm_num, hstep]
      · have hne0 : i ≠ 0 := by omega
        have hssS : (silentRunState s0 f t0 dur tr i).silence_start_time = some t0 := by
          rw [hssI]
          simp [hne0]
        have hlate := elapsed_le_timeout t0 i hi12
        have hstep := add_step_silent_cont (silentRunState s0 f t0 dur tr i) (f i)
          (t0 + (i : ℚ) * frameSec) dur tr t0 hstI hssS hsilI hlate hbufI
        refine ⟨?_, ?_, ?_, ?_⟩
        · show (add_audio_frame (silentRunState s0 f t0 dur tr i) (f i)
            (t0 + (i : ℚ) * frameSec) dur tr).1.state = ListenerState.LISTENING_FOR_SPEECH
          rw [hstep]
          exact hstI
        · show (add_audio_frame (silentRunState s0 f t0 dur tr i) (f i)
            (t0 + (i : ℚ) * frameSec) dur tr).1.audio_buffer.length =
            s0.audio_buffer.length + (i + 1)
          rw [hstep]
          simp only [List.length_append, List.length_singleton]
          omega
        · show (add_audio_frame (silentRunState s0 f t0 dur tr i) (f i)
            (t0 + (i : ℚ) * frameSec) dur tr).1.silence_start_time =
            (if i + 1 = 0 then none else some t0)
          rw [hstep]
          show (silentRunState s0 f t0 dur tr i).silence_start_time =
            (if i + 1 = 0 then none else some t0)
          rw [hssS]
          simp
        · intro j hj
          rcases Nat.lt_succ_iff_lt_or_eq.mp hj with hj2 | hj2
          · exact hresI j hj2
          · subst hj2
            show (add_audio_frame (silentRunState s0 f t0 dur tr j) (f j)
              (t0 + (j : ℚ) * frameSec) dur tr).2.2 = none
            rw [hstep]

/-- If the state after the speech-processing substep is wake-word
detection, the wake-word model is invoked on the frame (in or out of
cooldown). -/
theorem mainStep_predict_of_wwd (s : SPState) (f : Frame) (scores : List (String × ℚ))
    (threshold now dur : ℚ) (tr : Except String (List String))
    (h : (add_audio_frame s f now dur tr).1.state = ListenerState.WAKE_WORD_DETECTION) :
    (mainStep s f scores threshold now dur tr).predict_called = true := by
  unfold mainStep
  dsimp only
  by_cases hc : (add_audio_frame s f now dur tr).1.state = ListenerState.WAKE_WORD_DETECTION ∧
      is_in_cooldown (add_audio_frame s f now dur tr).1 now = false
  · rw [if_pos hc]
    split
    · rfl
    · rfl
  · rw [if_neg hc, if_pos h]

/-- If the state after the speech-processing substep is not wake-word
detection, the wake-word model is not invoked on the frame. -/
theorem mainStep_predict_of_not_wwd (s : SPState) (f : Frame) (scores : List (String × ℚ))
    (threshold now dur : ℚ) (tr : Except String (List String))
    (h : ¬ (add_audio_frame s f now dur tr).1.state = ListenerState.WAKE_WORD_DETECTION) :
    (mainStep s f scores threshold now dur tr).predict_called = false := by
  unfold mainStep
  dsimp only
  rw [if_neg (fun hc => h hc.1), if_neg h]

/-- The Boolean `is_silent` verdict spelled out as the spec states it: with
more than 10 samples of history (current frame included), energy below
`max(0.25 x mean energy, 0.01)` and zero-crossing rate below
`1.5 x mean zcr`; with 10 or fewer samples, energy below 0.02 alone. -/
theorem isSilentAt_iff (s : SPState) (f : Frame) :
    isSilentAt s f = true ↔
      (if 10 < (histAfter s f).length then
        f.rms < max (ratMean ((histAfter s f).map Features.rms) * (1 / 4)) (1 / 100) ∧
          f.zcr < ratMean ((histAfter s f).map Features.zcr) * (3 / 2)
      else f.rms < 2 / 100) := by
  unfold isSilentAt
  by_cases hh : 10 < (histAfter s f).length
  · simp [hh]
  · simp [hh]

/-! ### Claim theorems -/

/-- C6: when a restart has been requested, the next `read_frame` call emits
exactly one `info` event followed by exactly one `listening_start` event,
returns no frame, discards the partially-accumulated bytes, clears the
restart flag, and leaves the cursor right after the 44-byte WAV header. -/
theorem restart_resync (r : RestartableFileReader) (tInfo tListen : ℚ)
    (readResult : Except String (List ℕ))
    (h : r.restart_requested = true) :
    read_frame r tInfo tListen readResult =
      Except.ok ({ pos := WAV_HEADER, leftover := [], restart_requested := false },
        none, [Event.info tInfo, Event.listening_start tListen]) := by
  unfold read_frame
  rw [if_pos (by rw [h])]
  rfl

theorem restart_resync_witness :
    read_frame (request_restart open_file) 1 2 (Except.ok [5]) =
      Except.ok ({ pos := WAV_HEADER, leftover := [], restart_requested := false },
        none, [Event.info 1, Event.listening_start 2]) :=
  restart_resync (request_restart open_file) 1 2 (Except.ok [5]) rfl

/-- C8 counterexample: the claim says any read fault mid-stream is treated
as Pending; in the code an exception raised by `self.f.read` is not caught
by `read_frame` and propagates (terminating the process), as evaluated here
on a concrete reader and fault. -/
theorem read_fault_propagates :
    read_frame { pos := 44, leftover := [], restart_requested := false } 0 0
      (Except.error "EIO") = Except.error "EIO" := rfl

/-- C8 amended: a successful read that yields fewer bytes than a full frame
(for instance zero bytes while the writer is paused) is treated as Pending:
`read_frame` returns without a frame and without events, retaining the
already-buffered bytes; but an exception raised by the underlying read
propagates out of `read_frame` rather than being treated as Pending. -/
theorem short_read_pending (r : RestartableFileReader) (chunk : List ℕ)
    (tInfo tListen : ℚ)
    (hres : r.restart_requested = false)
    (hshort : r.leftover.length + chunk.length < FRAME_BYTES) :
    read_frame r tInfo tListen (Except.ok chunk) =
      Except.ok ((if chunk = [] then r
        else { r with leftover := r.leftover ++ chunk, pos := r.pos + chunk.length }),
        none, []) ∧
    (∀ e : String, read_frame r tInfo tListen (Except.error e) = Except.error e) := by
  constructor
  · by_cases hc : chunk = []
    · subst hc
      simp [read_frame, hres]
    · have hlen : (r.leftover ++ chunk).length < FRAME_BYTES := by
        simp only [List.length_append]
        omega
      simp only [read_frame, hres, Bool.false_eq_true, if_false, ite_false, hc, hlen,
        if_true, ite_true]
  · intro e
    simp [read_frame, hres]

theorem short_read_pending_witness :
    read_frame { pos := 44, leftover := [7], restart_requested := false } 0 0
      (Except.ok [8]) =
      Except.ok ({ pos := 45, leftover := [7, 8], restart_requested := false }, none, []) := by
  have h := short_read_pending { pos := 44, leftover := [7], restart_requested := false }
    [8] 0 0 rfl (by decide)
  simpa using h.1

/-- C3: an end-of-utterance action on a non-empty buffer never propagates a
fault: it returns exactly one result event (a transcription event on
success, an error event carrying the message and processing time on
failure), emits the cooldown-start info event, and afterwards the state is
wake-word detection, the buffer is empty and the cooldown window is active
exactly for the configured cooldown period measured from the completion
instant. -/
theorem process_outcome (s : SPState) (tStart dur : ℚ) (tr : Except String (List String))
    (hne : s.audio_buffer ≠ []) :
    (process_buffered_audio s tStart dur tr).1.state = ListenerState.WAKE_WORD_DETECTION ∧
    (process_buffered_audio s tStart dur tr).1.audio_buffer = [] ∧
    (process_buffered_audio s tStart dur tr).1.last_transcription_time =
      some (tStart + dur) ∧
    (process_buffered_audio s tStart dur tr).2.1 = [Event.info (tStart + dur)] ∧
    (∀ segs, tr = Except.ok segs →
      (process_buffered_audio s tStart dur tr).2.2 =
        some (Event.transcription (String.intercalate " " (segs.map String.trim))
          (((concatSamples s.audio_buffer).length : ℚ) / (SR : ℚ)) dur (tStart + dur))) ∧
    (∀ msg, tr = Except.error msg →
      (process_buffered_audio s tStart dur tr).2.2 =
        some (Event.error (String.append "Transcription failed: " msg) dur
          (tStart + dur))) ∧
    (∀ u : ℚ, is_in_cooldown (process_buffered_audio s tStart dur tr).1 u =
      decide (u - (tStart + dur) < s.cooldown_period)) := by
  rw [process_spec s tStart dur tr hne]
  refine ⟨rfl, rfl, rfl, rfl, ?_, ?_, ?_⟩
  · intro segs hseg
    subst hseg
    rfl
  · intro msg hmsg
    subst hmsg
    rfl
  · intro u
    rfl

theorem process_outcome_witness :
    (process_buffered_audio listenState1 5 (1 / 10) (Except.error "boom")).1.state =
      ListenerState.WAKE_WORD_DETECTION ∧
    (process_buffered_audio listenState1 5 (1 / 10) (Except.error "boom")).1.audio_buffer = [] ∧
    (process_buffered_audio listenState1 5 (1 / 10) (Except.error "boom")).2.2 =
      some (Event.error (String.append "Transcription failed: " "boom") (1 / 10)
        (5 + 1 / 10)) ∧
    is_in_cooldown (process_buffered_audio listenState1 5 (1 / 10) (Except.error "boom")).1
      (11 / 2) = decide ((11 / 2 : ℚ) - (5 + 1 / 10) < listenState1.cooldown_period) := by
  have h := process_outcome listenState1 5 (1 / 10) (Except.error "boom") (by decide)
  exact ⟨h.1, h.2.1, h.2.2.2.2.2.1 "boom" rfl, h.2.2.2.2.2.2 (11 / 2)⟩

/-- C10: in a listening step the frame is appended before any silence or
capacity check, so the buffer handed to the end-of-utterance action is
never empty; consequently every in-step exit from listening produces a
result event and starts the cooldown — the empty-buffer early return of
`process_buffered_audio` (no event, no cooldown) is unreachable from this
step. -/
theorem eou_requires_nonempty (s : SPState) (f : Frame) (now dur : ℚ)
    (tr : Except String (List String))
    (hst : s.state = ListenerState.LISTENING_FOR_SPEECH) :
    pushMax audioBufferMaxlen s.audio_buffer f ≠ [] ∧
    ((add_audio_frame s f now dur tr).1.state = ListenerState.WAKE_WORD_DETECTION →
      (add_audio_frame s f now dur tr).2.2 ≠ none ∧
      (add_audio_frame s f now dur tr).1.last_transcription_time = some (now + dur)) := by
  refine ⟨pushMax_ne_nil (by rw [audioBufferMaxlen_eq]; omega) _ _, fun hW => ?_⟩
  rcases add_listening_cases s f now dur tr hst with ⟨h1, _, _, _, _⟩ | ⟨_, h2, _, h4⟩
  · rw [h1] at hW
    exact absurd hW (by decide)
  · exact ⟨h2, h4⟩

theorem eou_requires_nonempty_witness :
    pushMax audioBufferMaxlen nearFullState.audio_buffer quietFrame ≠ [] ∧
    ((add_audio_frame nearFullState quietFrame 0 0 (Except.ok [])).1.state =
        ListenerState.WAKE_WORD_DETECTION →
      (add_audio_frame nearFullState quietFrame 0 0 (Except.ok [])).2.2 ≠ none ∧
      (add_audio_frame nearFullState quietFrame 0 0 (Except.ok [])).1.last_transcription_time =
        some (0 + 0)) :=
  eou_requires_nonempty nearFullState quietFrame 0 0 (Except.ok []) rfl

/-- C7: a listening frame is classified silent (observable as the silence
start being recorded) exactly according to the adaptive policy: once the
rolling history (current frame included) holds more than 10 samples, iff
its energy is below `max(0.25 x mean energy, 0.01)` and its zero-crossing
rate is below `1.5 x mean zcr`; with 10 or fewer samples, iff its energy is
below the fixed default 0.02, the zero-crossing rate being ignored. -/
theorem adaptive_silence_classification (s : SPState) (f : Frame) (now dur : ℚ)
    (tr : Except String (List String))
    (hst : s.state = ListenerState.LISTENING_FOR_SPEECH)
    (hss : s.silence_start_time = none)
    (hbuf : s.audio_buffer.length + 1 < audioBufferMaxlen - 10) :
    ((add_audio_frame s f now dur tr).1.silence_start_time = some now ↔
      (if 10 < (histAfter s f).length then
        f.rms < max (ratMean ((histAfter s f).map Features.rms) * (1 / 4)) (1 / 100) ∧
          f.zcr < ratMean ((histAfter s f).map Features.zcr) * (3 / 2)
      else f.rms < 2 / 100)) := by
  by_cases hsil : isSilentAt s f = true
  · rw [add_step_silent_start s f now dur tr hst hss hsil hbuf]
    exact iff_of_true rfl ((isSilentAt_iff s f).mp hsil)
  · have hsil2 : isSilentAt s f = false := by
      simpa using hsil
    rw [add_step_not_silent s f now dur tr hst hsil2 hbuf]
    refine iff_of_false (fun hE => Option.noConfusion hE) (fun hform => ?_)
    rw [(isSilentAt_iff s f).mpr hform] at hsil2
    exact absurd hsil2 (by decide)

theorem adaptive_silence_classification_witness :
    ((add_audio_frame listenState quietFrame 7 0 (Except.ok [])).1.silence_start_time =
        some 7 ↔
      (if 10 < (histAfter listenState quietFrame).length then
        quietFrame.rms <
            max (ratMean ((histAfter listenState quietFrame).map Features.rms) * (1 / 4))
              (1 / 100) ∧
          quietFrame.zcr <
            ratMean ((histAfter listenState quietFrame).map Features.zcr) * (3 / 2)
      else quietFrame.rms < 2 / 100)) :=
  adaptive_silence_classification listenState quietFrame 7 0 (Except.ok []) rfl rfl
    (by decide)

/-- C4: while the cooldown window is active (under the reachability
invariant `StateInv`, which pins the resting state to wake-word detection),
a frame produces no wakeword event and no transition: the state is
unchanged — in particular there is no transition to listening — yet the
wake-word model still receives the frame. -/
theorem cooldown_suppression (s : SPState) (f : Frame) (scores : List (String × ℚ))
    (threshold t dur : ℚ) (tr : Except String (List String))
    (hinv : StateInv s t) (hcd : is_in_cooldown s t = true) :
    wakewordEvents (mainStep s f scores threshold t dur tr).events = [] ∧
    (mainStep s f scores threshold t dur tr).predict_called = true ∧
    (mainStep s f scores threshold t dur tr).st = s := by
  have hstate : s.state = ListenerState.WAKE_WORD_DETECTION := by
    cases hst : s.state with
    | WAKE_WORD_DETECTION => rfl
    | LISTENING_FOR_SPEECH =>
        rw [hinv.2 hst] at hcd
        exact absurd hcd (by decide)
    | PROCESSING_SPEECH => exact absurd hst hinv.1
  have hadd := add_audio_frame_not_listening s f t dur tr (by rw [hstate]; decide)
  unfold mainStep
  dsimp only
  rw [hadd]
  have hcondF : ¬ ((s, ([] : List Event), (none : Option Event)).1.state =
      ListenerState.WAKE_WORD_DETECTION ∧
      is_in_cooldown (s, ([] : List Event), (none : Option Event)).1 t = false) := by
    intro hcon
    have h2 : is_in_cooldown s t = false := hcon.2
    rw [h2] at hcd
    exact absurd hcd (by decide)
  have hcondT : (s, ([] : List Event), (none : Option Event)).1.state =
      ListenerState.WAKE_WORD_DETECTION := hstate
  rw [if_neg hcondF, if_pos hcondT]
  exact ⟨rfl, rfl, rfl⟩

theorem cooldown_suppression_witness :
    wakewordEvents (mainStep cooldownState quietFrame [("sumika", 1)] (1 / 2) (1 / 2) 0
      (Except.ok [])).events = [] ∧
    (mainStep cooldownState quietFrame [("sumika", 1)] (1 / 2) (1 / 2) 0
      (Except.ok [])).predict_called = true ∧
    (mainStep cooldownState quietFrame [("sumika", 1)] (1 / 2) (1 / 2) 0
      (Except.ok [])).st = cooldownState :=
  cooldown_suppression cooldownState quietFrame [("sumika", 1)] (1 / 2) (1 / 2) 0
    (Except.ok []) ⟨by decide, fun h => absurd h (by decide)⟩
    (by with_unfolding_all decide)

/-- C5 counterexample: the claim says the wake-word model receives every
frame in every state; here a concrete frame processed in
`ListeningForSpeech` (one that does not end the utterance) is never handed
to the model. -/
theorem predict_skipped_while_listening :
    listenState.state = ListenerState.LISTENING_FOR_SPEECH ∧
    (mainStep listenState quietFrame [("sumika", 1)] (1 / 2) 0 0
      (Except.ok [])).predict_called = false :=
  ⟨rfl, by with_unfolding_all decide⟩

/-- C5 amended: the wake-word model receives the frame exactly when the
state after the speech-processing substep is wake-word detection — that is,
on every frame processed in `WakeWordDetection` (in or out of cooldown) and
on a listening frame only when it triggers the end-of-utterance action;
ordinary listening frames are not fed to the model. -/
theorem predict_invocation_iff (s : SPState) (f : Frame) (scores : List (String × ℚ))
    (threshold now dur : ℚ) (tr : Except String (List String))
    (hP : s.state ≠ ListenerState.PROCESSING_SPEECH) :
    ((mainStep s f scores threshold now dur tr).predict_called = true ↔
      ¬ (s.state = ListenerState.LISTENING_FOR_SPEECH ∧
        (add_audio_frame s f now dur tr).2.2 = none)) := by
  cases hstate : s.state with
  | PROCESSING_SPEECH => exact absurd hstate hP
  | WAKE_WORD_DETECTION =>
      have hadd := add_audio_frame_not_listening s f now dur tr (by rw [hstate]; decide)
      have hpc := mainStep_predict_of_wwd s f scores threshold now dur tr
        (by rw [hadd]; exact hstate)
      refine iff_of_true hpc (fun hcon => ?_)
      exact absurd hcon.1 (by decide)
  | LISTENING_FOR_SPEECH =>
      rcases add_listening_cases s f now dur tr hstate with ⟨h1, h2, _, _, _⟩ | ⟨h1, h2, _, _⟩
      · have hpc := mainStep_predict_of_not_wwd s f scores threshold now dur tr
          (by rw [h1]; decide)
        refine iff_of_false (by rw [hpc]; decide) (fun hcon => hcon ⟨rfl, h2⟩)
      · have hpc := mainStep_predict_of_wwd s f scores threshold now dur tr h1
        refine iff_of_true hpc (fun hcon => h2 hcon.2)

theorem predict_invocation_iff_witness :
    ((mainStep cooldownState loudFrame [("sumika", 1)] (1 / 2) (1 / 2) 0
        (Except.ok [])).predict_called = true ↔
      ¬ (cooldownState.state = ListenerState.LISTENING_FOR_SPEECH ∧
        (add_audio_frame cooldownState loudFrame (1 / 2) 0 (Except.ok [])).2.2 = none)) :=
  predict_invocation_iff cooldownState loudFrame [("sumika", 1)] (1 / 2) (1 / 2) 0
    (Except.ok []) (by decide)

/-- C9: in wake-word detection outside cooldown, the comparison against the
activation threshold is inclusive (`score >= threshold`, so a score equal
to the threshold is kept by the filter), and when several labels pass, the
single emitted wakeword event carries the first passing label in iteration
order; the state then transitions to listening. -/
theorem threshold_inclusive_first_label (s : SPState) (f : Frame)
    (scores : List (String × ℚ)) (threshold now dur : ℚ)
    (tr : Except String (List String)) (label : String) (score : ℚ)
    (rest : List (String × ℚ))
    (hstate : s.state = ListenerState.WAKE_WORD_DETECTION)
    (hcd : is_in_cooldown s now = false)
    (hfil : scores.filter (fun p => decide (threshold ≤ p.2)) = (label, score) :: rest) :
    wakewordEvents (mainStep s f scores threshold now dur tr).events =
      [Event.wakeword label score now] ∧
    (mainStep s f scores threshold now dur tr).st.state =
      ListenerState.LISTENING_FOR_SPEECH := by
  have hadd := add_audio_frame_not_listening s f now dur tr (by rw [hstate]; decide)
  unfold mainStep
  dsimp only
  rw [hadd]
  have hcond : (s, ([] : List Event), (none : Option Event)).1.state =
      ListenerState.WAKE_WORD_DETECTION ∧
      is_in_cooldown (s, ([] : List Event), (none : Option Event)).1 now = false :=
    ⟨hstate, hcd⟩
  rw [if_pos hcond, hfil]
  exact ⟨rfl, rfl⟩

theorem threshold_inclusive_first_label_witness :
    wakewordEvents (mainStep initState loudFrame [("a", 1 / 2), ("b", 3 / 4)] (1 / 2) 0 0
      (Except.ok [])).events = [Event.wakeword "a" (1 / 2) 0] ∧
    (mainStep initState loudFrame [("a", 1 / 2), ("b", 3 / 4)] (1 / 2) 0 0
      (Except.ok [])).st.state = ListenerState.LISTENING_FOR_SPEECH :=
  threshold_inclusive_first_label initState loudFrame [("a", 1 / 2), ("b", 3 / 4)]
    (1 / 2) 0 0 (Except.ok []) "a" (1 / 2) [("b", 3 / 4)] rfl rfl
    (by with_unfolding_all decide)

/-- C2: the capture buffer never exceeds its capacity of 125 frames: from
the initial state, every run of the main loop keeps it at or below
capacity; below capacity the deque append is a plain append (no ring-style
overwrite of a buffered frame); and a listening step whose append reaches
`capacity - 10` frames forces an end-of-utterance action (result event,
cleared buffer, return to wake-word detection) regardless of silence. -/
theorem capture_buffer_invariant :
    (∀ (threshold : ℚ) (inputs : List StepInput),
      (runMain threshold initState inputs).audio_buffer.length ≤ audioBufferMaxlen) ∧
    (∀ (s : SPState) (f : Frame),
      (pushMax audioBufferMaxlen s.audio_buffer f).length ≤ audioBufferMaxlen) ∧
    (∀ (s : SPState) (f : Frame), s.audio_buffer.length + 1 ≤ audioBufferMaxlen →
      pushMax audioBufferMaxlen s.audio_buffer f = s.audio_buffer ++ [f]) ∧
    (∀ (s : SPState) (f : Frame) (now dur : ℚ) (tr : Except String (List String)),
      s.state = ListenerState.LISTENING_FOR_SPEECH →
      s.audio_buffer.length + 1 ≤ audioBufferMaxlen →
      audioBufferMaxlen - 10 ≤ s.audio_buffer.length + 1 →
      (add_audio_frame s f now dur tr).2.2 ≠ none ∧
      (add_audio_frame s f now dur tr).1.audio_buffer = [] ∧
      (add_audio_frame s f now dur tr).1.state = ListenerState.WAKE_WORD_DETECTION) := by
  refine ⟨?_, ?_, ?_, ?_⟩
  · intro threshold inputs
    have h := runMain_buffer_le threshold inputs initState (Nat.zero_le _)
    have h2 : audioBufferMaxlen - 11 ≤ audioBufferMaxlen := Nat.sub_le _ _
    omega
  · intro s f
    rw [pushMax_length]
    exact min_le_right _ _
  · intro s f h
    exact pushMax_eq_append h
  · intro s f now dur tr hst hcap hfull
    have h := add_step_full_buffer s f now dur tr hst hcap hfull
    exact ⟨h.1, h.2.1, h.2.2.1⟩

theorem capture_buffer_invariant_witness :
    (runMain (1 / 2) initState []).audio_buffer.length ≤ audioBufferMaxlen ∧
    ((add_audio_frame nearFullState quietFrame 0 0 (Except.ok [])).2.2 ≠ none ∧
      (add_audio_frame nearFullState quietFrame 0 0 (Except.ok [])).1.audio_buffer = [] ∧
      (add_audio_frame nearFullState quietFrame 0 0 (Except.ok [])).1.state =
        ListenerState.WAKE_WORD_DETECTION) :=
  ⟨capture_buffer_invariant.1 (1 / 2) [],
    capture_buffer_invariant.2.2.2 nearFullState quietFrame 0 0 (Except.ok []) rfl
      (by decide) (by decide)⟩

/-- C1 counterexample: the claim says end-of-utterance is invoked only once
elapsed silence strictly exceeds the timeout; but with the capture buffer
one frame below the forced-transcription threshold, the very first silent
frame (no silence even recorded yet, elapsed zero) already invokes the
end-of-utterance action through the max-buffer check. -/
theorem silence_timeout_capacity_cex :
    nearFullState.silence_start_time = none ∧
    nearFullState.state = ListenerState.LISTENING_FOR_SPEECH ∧
    (add_audio_frame nearFullState quietFrame 0 0 (Except.ok [])).2.2 ≠ none :=
  ⟨rfl, rfl, by with_unfolding_all decide⟩

/-- C1 amended: for a run of consecutive silent frames fed at the 80 ms
frame cadence from a listening state with no recorded silence start,
provided the capture buffer stays below the forced-transcription threshold
throughout the run, the end-of-utterance action fires exactly on the first
frame whose elapsed time since the recorded silence start strictly exceeds
the 1000 ms timeout (index 13, at 1040 ms): on no earlier frame, and no
later than one frame duration (80 ms) past the timeout. -/
theorem silence_timeout_boundary (s0 : SPState) (f : ℕ → Frame) (t0 dur : ℚ)
    (tr : Except String (List String))
    (h1 : s0.state = ListenerState.LISTENING_FOR_SPEECH)
    (h2 : s0.silence_start_time = none)
    (hsil : ∀ i, i ≤ 13 → isSilentAt (silentRunState s0 f t0 dur tr i) (f i) = true)
    (hbuf : s0.audio_buffer.length + 14 < audioBufferMaxlen - 10) :
    (∀ i, i ≤ 12 → silentRunResult s0 f t0 dur tr i = none) ∧
    silentRunResult s0 f t0 dur tr 13 ≠ none ∧
    (∀ i : ℕ, i ≤ 12 →
      ¬ (((t0 + (i : ℚ) * frameSec) - t0) * 1000 > (SILENCE_TIMEOUT_MS : ℚ))) ∧
    ((t0 + (13 : ℚ) * frameSec) - t0) * 1000 > (SILENCE_TIMEOUT_MS : ℚ) ∧
    ((t0 + (13 : ℚ) * frameSec) - t0) * 1000 ≤
      (SILENCE_TIMEOUT_MS : ℚ) + (FRAME_MS : ℚ) := by
  obtain ⟨hst13, hlen13, hss13, hres13⟩ :=
    silence_run_inv s0 f t0 dur tr h1 h2 hsil hbuf 13 le_rfl
  have hcast : ((13 : ℕ) : ℚ) = (13 : ℚ) := by norm_num
  refine ⟨?_, ?_, ?_, elapsed_fire t0, ?_⟩
  · intro i hi
    exact hres13 i (by omega)
  · have hss : (silentRunState s0 f t0 dur tr 13).silence_start_time = some t0 := by
      rw [hss13]
      simp
    have hfire : ((t0 + ((13 : ℕ) : ℚ) * frameSec) - t0) * 1000 >
        (SILENCE_TIMEOUT_MS : ℚ) := by
      rw [hcast]
      exact elapsed_fire t0
    have hstep := add_step_silent_fire (silentRunState s0 f t0 dur tr 13) (f 13)
      (t0 + ((13 : ℕ) : ℚ) * frameSec) dur tr t0 hst13 hss (hsil 13 le_rfl) hfire
    exact hstep.1
  · intro i hi
    exact elapsed_le_timeout t0 i hi
  · have hfs : frameSec = 80 / 1000 := by norm_num [frameSec, FRAME_MS]
    show _ ≤ ((1000 : ℕ) : ℚ) + ((80 : ℕ) : ℚ)
    rw [hfs]
    push_cast
    ring_nf
    norm_num

theorem silence_timeout_boundary_witness :
    silentRunResult listenState (fun _ => quietFrame) 0 0 (Except.ok []) 12 = none ∧
    silentRunResult listenState (fun _ => quietFrame) 0 0 (Except.ok []) 13 ≠ none := by
  have h := silence_timeout_boundary listenState (fun _ => quietFrame) 0 0 (Except.ok [])
    rfl rfl (by with_unfolding_all decide) (by decide)
  exact ⟨h.1 12 le_rfl, h.2.1⟩

end WakeListener
